import Mathlib

/-!
Verification of the ClipMaster video-processing pipeline
(src/ClipMaster/video_processor.py and src/ClipMaster/video_encoder.py).

The python code is shallowly embedded: pure timing and geometry arithmetic
becomes exact rational arithmetic (python floats are modelled as rationals,
python `int(...)` as truncation toward zero, python `//` and `%` as floor
division and floor remainder); external effects (subprocess exit codes,
file sizes on disk, exceptions raised by MoviePy or Whisper calls) become
explicit environment records whose boolean fields record the outcome of
each external call, and the embedded functions compute the results and the
file-system effects that the python control flow produces from those
outcomes.

Definitions named after the python methods are translated from the source.
Definitions prefixed with `spec_` instead transcribe the behaviour that the
specification text claims, and exist only to be compared with the source
behaviour.
-/

namespace ClipMaster

/-- Python `int(q)` on a real value: truncation toward zero. -/
def pyint (q : ℚ) : ℤ := if 0 ≤ q then ⌊q⌋ else ⌈q⌉

/-- Python `a % b` for a positive modulus `b`: the remainder of floor
division, `a - b * (a // b)`. -/
def qmod (a b : ℚ) : ℚ := a - b * ⌊a / b⌋

/-- A timed piece of transcribed text, as produced by the Whisper
transcription (one entry of `result["segments"]`). -/
structure SubSpan where
  start : ℚ
  endTime : ℚ
  text : String
  deriving DecidableEq, Repr

/-- One burned-in caption composited over the video by `_add_subtitles`:
a styled text clip together with its background clip, both timed over
`[start, endTime]`. -/
structure RenderedCaption where
  start : ℚ
  endTime : ℚ
  text : String
  deriving DecidableEq, Repr

/-- Embeds `VideoProcessor._split_video` (video_processor.py lines 211-231).
The python loop is `for start_time in range(0, int(duration), segment_duration)`
with `end_time = min(start_time + segment_duration, duration)`; the segment
list therefore has one `(start, end)` pair per multiple of
`segment_duration` below `int(duration)`, which is
`ceil(floor(duration) / segment_duration)` pairs. -/
def split_video (duration : ℚ) (segment_duration : ℕ) : List (ℚ × ℚ) :=
  (List.range ((⌊duration⌋.toNat + segment_duration - 1) / segment_duration)).map
    fun i =>
      (((i * segment_duration : ℕ) : ℚ),
        min (((i * segment_duration + segment_duration : ℕ) : ℚ)) duration)

/-- Embeds `VideoProcessor._format_timestamp` (lines 311-327).
`hours = int(seconds // 3600)`, `minutes = int((seconds % 3600) // 60)`,
`seconds = seconds % 60`, `milliseconds = int((seconds % 1) * 1000)`,
`seconds = int(seconds)`; the four fields of the returned
`HH:MM:SS,mmm` string are returned as a tuple.  For the nonnegative
values taken here python `int(...)` agrees with the floor. -/
def format_timestamp (seconds : ℚ) : ℤ × ℤ × ℤ × ℤ :=
  (⌊seconds / 3600⌋,
    ⌊qmod seconds 3600 / 60⌋,
    ⌊qmod seconds 60⌋,
    ⌊qmod (qmod seconds 60) 1 * 1000⌋)

/-- Embeds `VideoProcessor._srt_time_to_seconds` (lines 960-971):
`hours * 3600 + minutes * 60 + float(seconds)`, where the seconds field of
the SRT timestamp carries the milliseconds after the comma. -/
def srt_time_to_seconds (hours minutes : ℤ) (seconds : ℚ) : ℚ :=
  hours * 3600 + minutes * 60 + seconds

/-- Formatting a time with `_format_timestamp` and parsing the resulting
SRT timestamp back with `_srt_time_to_seconds`: the seconds field of the
printed string is `SS,mmm`, parsed as `SS + mmm / 1000`. -/
def timestamp_roundtrip (t : ℚ) : ℚ :=
  srt_time_to_seconds (format_timestamp t).1 (format_timestamp t).2.1
    (((format_timestamp t).2.2.1 : ℚ) + ((format_timestamp t).2.2.2 : ℚ) / 1000)

/-- Outcomes of the external calls made by `VideoEncoder.reencode_video`
and `VideoEncoder._reduce_file_size` (video_encoder.py): ffprobe analyses,
ffmpeg exit codes, and the sizes the files have on disk.  Sizes are in MB,
the duration in seconds. -/
structure EncodeEnv where
  analyzeOk : Bool
  encodeOk : Bool
  outputSizeMB : ℚ
  reduceAnalyzeOk : Bool
  durationSec : ℚ
  reduceEncodeOk : Bool
  reduceTempCreated : Bool
  reducedSizeMB : ℚ
  deriving DecidableEq

/-- Result of `reencode_video` and of `_reduce_file_size`: the returned
boolean, the size the artifact at `output_path` has afterwards, how many
size-reduction re-encodes ran, and the video/audio bitrates (kbps) passed
to the reduction encode when one ran. -/
structure EncodeOutcome where
  success : Bool
  finalSizeMB : ℚ
  reduceEncodes : ℕ
  reduceBitrate : Option ℤ
  reduceAudioBitrate : Option ℕ
  deriving DecidableEq

/-- Embeds `VideoEncoder._reduce_file_size` (video_encoder.py lines 150-210).
If the ffprobe analysis fails the method returns False; a zero duration
raises ZeroDivisionError, caught by the handler, returning False; otherwise
`new_bitrate = int((max_size * 0.95 * 8192) / duration)` kbps and one ffmpeg
re-encode to `<path>.temp.mp4` runs with audio bitrate 96k; on a non-zero
exit code the method returns False, else `os.replace` installs the temp
file and the method returns `final_size <= max_size`. -/
def reduce_file_size (max_size : ℚ) (env : EncodeEnv) : EncodeOutcome :=
  if env.reduceAnalyzeOk = false then
    { success := false, finalSizeMB := env.outputSizeMB, reduceEncodes := 0,
      reduceBitrate := none, reduceAudioBitrate := none }
  else if env.durationSec = 0 then
    { success := false, finalSizeMB := env.outputSizeMB, reduceEncodes := 0,
      reduceBitrate := none, reduceAudioBitrate := none }
  else
    let new_bitrate := pyint (max_size * (95 / 100) * 8192 / env.durationSec)
    if env.reduceEncodeOk = false then
      { success := false, finalSizeMB := env.outputSizeMB, reduceEncodes := 1,
        reduceBitrate := some new_bitrate, reduceAudioBitrate := some 96 }
    else
      { success := decide (env.reducedSizeMB ≤ max_size), finalSizeMB := env.reducedSizeMB,
        reduceEncodes := 1, reduceBitrate := some new_bitrate,
        reduceAudioBitrate := some 96 }

/-- Embeds `VideoEncoder.reencode_video` (video_encoder.py lines 85-148).
After a successful first encode the output size is compared with
`max_file_size_mb`; an oversized output is handed to `_reduce_file_size`
and its boolean is returned; otherwise True is returned directly. -/
def reencode_video (max_size : ℚ) (env : EncodeEnv) : EncodeOutcome :=
  if env.analyzeOk = false then
    { success := false, finalSizeMB := 0, reduceEncodes := 0,
      reduceBitrate := none, reduceAudioBitrate := none }
  else if env.encodeOk = false then
    { success := false, finalSizeMB := 0, reduceEncodes := 0,
      reduceBitrate := none, reduceAudioBitrate := none }
  else if max_size < env.outputSizeMB then
    reduce_file_size max_size env
  else
    { success := true, finalSizeMB := env.outputSizeMB, reduceEncodes := 0,
      reduceBitrate := none, reduceAudioBitrate := none }

/-- Temp files of `_reduce_file_size` still on disk when it returns:
on a failed reduction encode that produced a partial file, the temp file
`<path>.temp.mp4` is not removed before `return False`; on success
`os.replace` consumes it. -/
def reduce_file_size_leftover (env : EncodeEnv) (video_path : String) : List String :=
  if env.reduceAnalyzeOk = false then []
  else if env.durationSec = 0 then []
  else if env.reduceEncodeOk = false then
    if env.reduceTempCreated then [video_path ++ ".temp.mp4"] else []
  else []

/-- Outcomes of the external calls made by one iteration of the segment
loop of `VideoProcessor.process_video` (video_processor.py lines 116-202):
whether exporting the raw segment to `temp_segment_<i+1>.mp4` (and
reloading it) succeeds, whether writing `temp_with_subs_<i+1>.mp4`
succeeds, whether `_save_video` succeeds, whether
`encoder.reencode_video` returns True, and the output path `_save_video`
returns. -/
structure SegmentEnv where
  exportOk : Bool
  subsWriteOk : Bool
  saveOk : Bool
  encodeOk : Bool
  outputPath : String
  deriving DecidableEq

/-- One iteration of the segment loop: the appended output path, if any.
A raised exception at the export, subtitle-write or save stage is caught
at line 200 and the loop continues; a False from `encoder.reencode_video`
hits the `continue` at line 182; only a fully successful iteration appends
`output_path` (line 186). -/
def run_segment (reencode : Bool) (env : SegmentEnv) : Option String :=
  if env.exportOk = false then none
  else if env.subsWriteOk = false then none
  else if env.saveOk = false then none
  else if reencode = true ∧ env.encodeOk = false then none
  else some env.outputPath

/-- Temp files of loop iteration `i` still on disk when the iteration ends.
The cleanup loop (lines 188-194) runs only when the iteration reaches it:
the `continue` after an encoder failure (line 182) and the exception
handler (line 200) both skip it, leaving `temp_segment_<i+1>.mp4` and, when
already written, `temp_with_subs_<i+1>.mp4` behind. -/
def run_segment_leftover (reencode : Bool) (i : ℕ) (env : SegmentEnv) : List String :=
  let tempPath := "temp_segment_" ++ toString (i + 1) ++ ".mp4"
  let tempSubs := "temp_with_subs_" ++ toString (i + 1) ++ ".mp4"
  if env.exportOk = false then []
  else if env.subsWriteOk = false then [tempPath]
  else if env.saveOk = false then [tempPath, tempSubs]
  else if reencode = true ∧ env.encodeOk = false then [tempPath, tempSubs]
  else []

/-- Files created by loop iteration `i` that are part of the output
artifacts: the two temp exports, the metadata sidecar written by
`_save_video`, and the encoded output written by ffmpeg. -/
def run_segment_writes (reencode : Bool) (i : ℕ) (env : SegmentEnv) : List String :=
  let tempPath := "temp_segment_" ++ toString (i + 1) ++ ".mp4"
  let tempSubs := "temp_with_subs_" ++ toString (i + 1) ++ ".mp4"
  if env.exportOk = false then []
  else if env.subsWriteOk = false then [tempPath]
  else if env.saveOk = false then [tempPath, tempSubs]
  else [tempPath, tempSubs, env.outputPath ++ ".txt"] ++
    (if reencode = true ∧ env.encodeOk = true then [env.outputPath] else [])

/-- Embeds the result list of `VideoProcessor.process_video`
(video_processor.py lines 79-205): a missing file returns `[]` (line 97),
`dry_run` returns `[]` before any export (lines 107-110), and otherwise
the segment loop accumulates `output_paths`, appending only on fully
successful iterations. -/
def process_video (file_exists dry_run reencode : Bool) (envs : List SegmentEnv) :
    List String :=
  if file_exists = false then []
  else if dry_run then []
  else
    envs.foldl
      (fun acc env =>
        match run_segment reencode env with
        | some p => acc ++ [p]
        | none => acc)
      []

/-- Files created by a `process_video` call: nothing before the segment
loop writes to disk, so a missing file or a dry run creates nothing. -/
def process_video_writes (file_exists dry_run reencode : Bool)
    (envs : List SegmentEnv) : List String :=
  if file_exists = false then []
  else if dry_run then []
  else
    envs.enum.foldl (fun acc p => acc ++ run_segment_writes reencode p.1 p.2) []

/-- Embeds the span handling of
`VideoProcessor._generate_subtitles_for_segment` (video_processor.py lines
237-280): when subtitles are enabled and the Whisper transcription
succeeds, `result["segments"]` is returned unchanged; no merge of short
spans and no split of long spans is performed anywhere between the
transcriber and the renderer.  On a raised exception the handler returns
None (line 280); with subtitles disabled the method returns None. -/
def generate_subtitles_for_segment (use_subtitles transcribeOk : Bool)
    (whisperSegments : List SubSpan) : Option (List SubSpan) :=
  if use_subtitles = false then none
  else if transcribeOk = false then none
  else some whisperSegments

/-- Embeds the caption loop of `VideoProcessor._add_subtitles`
(video_processor.py lines 329-400).  When the MoviePy calls succeed, every
entry of `subtitles["segments"]` produces one caption (a text clip plus its
background clip) timed over the span, accumulated in `txt_clips`; there is
no filtering of spans by duration or by text.  When a MoviePy call raises,
the handler returns the original video unchanged (line 400), modelled as
`none`. -/
def add_subtitles (renderOk : Bool) (spans : List SubSpan) :
    Option (List RenderedCaption) :=
  if renderOk then
    some (spans.foldl
      (fun txt_clips s => txt_clips ++ [⟨s.start, s.endTime, s.text⟩]) [])
  else none

/-- The defensive span filter that the claim describes (spec section 4.3),
transcribed from the words of the specification for comparison with the
source: discard spans with non-positive duration, duration above 15s, or
text empty after trimming (that is, text consisting of whitespace only). -/
def spec_filter_spans (spans : List SubSpan) : List SubSpan :=
  spans.filter fun s =>
    decide (0 < s.endTime - s.start) && decide (s.endTime - s.start ≤ 15) &&
      !(s.text.data.all fun c => c.isWhitespace)

/-- The merge rule that the claim describes (spec section 4.2), transcribed
from the words of the specification: spans shorter than 1.2s are absorbed
into an accumulating buffer whose end time extends and whose text is
concatenated with a single space; the buffer is flushed when a non-short
span arrives or the input ends. -/
def spec_merge (buf : Option SubSpan) : List SubSpan → List SubSpan
  | [] =>
    match buf with
    | none => []
    | some b => [b]
  | s :: rest =>
    if s.endTime - s.start < 12 / 10 then
      match buf with
      | none => spec_merge (some s) rest
      | some b =>
        spec_merge (some ⟨b.start, s.endTime, b.text ++ " " ++ s.text⟩) rest
    else
      match buf with
      | none => s :: spec_merge none rest
      | some b => b :: s :: spec_merge none rest

/-- The split rule that the claim describes (spec section 4.2), transcribed
from the words of the specification: a span longer than 6s is partitioned
into `ceil(duration / 6)` equal sub-spans, the text copied verbatim to
each. -/
def spec_split_span (s : SubSpan) : List SubSpan :=
  let dur := s.endTime - s.start
  if 6 < dur then
    let n : ℕ := (⌈dur / 6⌉).toNat
    (List.range n).map fun i =>
      ⟨s.start + dur * i / n, s.start + dur * (i + 1) / n, s.text⟩
  else [s]

/-- The normalization that the claim describes: merge first, then split. -/
def spec_normalize (spans : List SubSpan) : List SubSpan :=
  (spec_merge none spans).flatMap spec_split_span

/-- Geometry of the output of `_force_vertical_format`: output dimensions
and the offset of the original content inside the output frame. -/
structure NormalizedClip where
  width : ℕ
  height : ℕ
  posX : ℕ
  posY : ℕ
  deriving DecidableEq, Repr

/-- Embeds `VideoProcessor._force_vertical_format` (video_processor.py
lines 402-448).  `target_ratio = 9/16`; if `w / h > 9/16` the clip is too
wide and black bars go above and below: `new_height = int(w / (9/16))`,
`padding = (new_height - h) // 2`, content at `("center", padding)` on a
`w × new_height` background.  Otherwise `new_width = int(h * (9/16))`,
`padding = (new_width - w) // 2`, content at `(padding, "center")` on a
`new_width × h` background. -/
def force_vertical_format (w h : ℕ) : NormalizedClip :=
  if (9 : ℚ) / 16 < (w : ℚ) / (h : ℚ) then
    { width := w, height := 16 * w / 9, posX := 0, posY := (16 * w / 9 - h) / 2 }
  else
    { width := 9 * h / 16, height := h, posX := (9 * h / 16 - w) / 2, posY := 0 }

/-- The renderers `_add_subtitles_ffmpeg` may invoke, in order. -/
inductive RendererAttempt where
  | libass
  | drawtext
  deriving DecidableEq, Repr

/-- What `_add_subtitles_ffmpeg` leaves at `output_path`: a subtitled
encode, or nothing usable (the method returned False); the method has no
path that hands back the original unmodified video, which would be the
third possibility. -/
inductive SubsOutput where
  | subtitled
  | original
  | none_produced
  deriving DecidableEq, Repr

/-- Outcomes of the external calls made by
`VideoProcessor._add_subtitles_ffmpeg` (video_processor.py lines 774-903):
existence checks of the input files, the ffprobe dimension query, and the
exit codes of the libass and drawtext ffmpeg invocations. -/
structure FfmpegSubsEnv where
  videoExists : Bool
  srtExists : Bool
  probeOk : Bool
  libassOk : Bool
  drawtextOk : Bool
  deriving DecidableEq

/-- Embeds `VideoProcessor._add_subtitles_ffmpeg`: missing files or a
failed probe return False with no renderer invoked; otherwise the libass
filter runs, a non-zero exit falls back to one drawtext attempt
(lines 870-896), and if that also exits non-zero the method returns False
(line 896) without restoring the original video. -/
def add_subtitles_ffmpeg (env : FfmpegSubsEnv) : SubsOutput × List RendererAttempt :=
  if env.videoExists = false then (SubsOutput.none_produced, [])
  else if env.srtExists = false then (SubsOutput.none_produced, [])
  else if env.probeOk = false then (SubsOutput.none_produced, [])
  else if env.libassOk then (SubsOutput.subtitled, [RendererAttempt.libass])
  else if env.drawtextOk then
    (SubsOutput.subtitled, [RendererAttempt.libass, RendererAttempt.drawtext])
  else (SubsOutput.none_produced, [RendererAttempt.libass, RendererAttempt.drawtext])

/-- The guarantees of the size-limited transcode: success is reported only
when the artifact is within the limit, at most one size-reduction
re-encode ever runs, and an oversized output that reaches the reduction
encode is re-encoded exactly once at the recomputed bitrate
`int(max_size * 0.95 * 8192 / duration)` kbps with audio reduced to 96
kbps, the temp file replacing the original exactly on encode success. -/
def EncodeGuarantees (max_size : ℚ) (env : EncodeEnv) : Prop :=
  ((reencode_video max_size env).success = true →
    (reencode_video max_size env).finalSizeMB ≤ max_size) ∧
  (reencode_video max_size env).reduceEncodes ≤ 1 ∧
  (env.analyzeOk = true → env.encodeOk = true → max_size < env.outputSizeMB →
    env.reduceAnalyzeOk = true → env.durationSec ≠ 0 →
    (reencode_video max_size env).reduceEncodes = 1 ∧
    (reencode_video max_size env).reduceBitrate
      = some (pyint (max_size * (95 / 100) * 8192 / env.durationSec)) ∧
    (reencode_video max_size env).reduceAudioBitrate = some 96 ∧
    (env.reduceEncodeOk = true →
      (reencode_video max_size env).finalSizeMB = env.reducedSizeMB))

/-- The geometry produced by `_force_vertical_format`: a clip wider than
9:16 is letterboxed to `w × (16w/9 rounded down)` with the content
vertically centered (top and bottom bars differing by at most one pixel),
a clip at most 9:16 is pillarboxed to `(9h/16 rounded down) × h` with the
content horizontally centered, and a 1080×1920 clip keeps its dimensions
with zero padding. -/
def VerticalFormatSpec (w h : ℕ) : Prop :=
  (9 * h < 16 * w →
    force_vertical_format w h
      = { width := w, height := 16 * w / 9, posX := 0,
          posY := (16 * w / 9 - h) / 2 } ∧
    h ≤ 16 * w / 9 ∧
    (16 * w / 9 - h) / 2 ≤ (16 * w / 9 - h) - (16 * w / 9 - h) / 2 ∧
    (16 * w / 9 - h) - (16 * w / 9 - h) / 2 ≤ (16 * w / 9 - h) / 2 + 1) ∧
  (16 * w ≤ 9 * h →
    force_vertical_format w h
      = { width := 9 * h / 16, height := h, posX := (9 * h / 16 - w) / 2,
          posY := 0 } ∧
    w ≤ 9 * h / 16 ∧
    (9 * h / 16 - w) / 2 ≤ (9 * h / 16 - w) - (9 * h / 16 - w) / 2 ∧
    (9 * h / 16 - w) - (9 * h / 16 - w) / 2 ≤ (9 * h / 16 - w) / 2 + 1) ∧
  force_vertical_format 1080 1920 = { width := 1080, height := 1920, posX := 0, posY := 0 }

/-- The renderer fallback behaviour of `_add_subtitles_ffmpeg` together
with the failure behaviour of the MoviePy renderer `_add_subtitles`: a
failed libass invocation falls back to exactly one drawtext invocation,
the output is subtitled exactly when one of the two succeeded, a double
failure yields a reported failure and not the original video, and the
MoviePy renderer hands back the original video on a render failure. -/
def RendererFallbackSpec (env : FfmpegSubsEnv) : Prop :=
  (env.libassOk = false →
    (add_subtitles_ffmpeg env).2 = [RendererAttempt.libass, RendererAttempt.drawtext]) ∧
  ((add_subtitles_ffmpeg env).1 = SubsOutput.subtitled ↔
    (env.libassOk = true ∨ env.drawtextOk = true)) ∧
  (env.libassOk = false → env.drawtextOk = false →
    (add_subtitles_ffmpeg env).1 = SubsOutput.none_produced ∧
    (add_subtitles_ffmpeg env).1 ≠ SubsOutput.original) ∧
  (∀ spans : List SubSpan, add_subtitles false spans = none)

/-- The tiling behaviour of `_split_video` on a whole-second duration `D`
with segment length `L`: the claimed segment count `ceil(D / L)`, adjacent
`[start, end)` intervals with no gaps and no overlaps, first start `0`,
last end `D` (the remainder is never dropped), and every segment of
positive length at most `L`. -/
def SplitTilingInt (D L : ℕ) : Prop :=
  (split_video (D : ℚ) L).length = (D + L - 1) / L ∧
  (((D + L - 1) / L : ℕ) : ℤ) = ⌈(D : ℚ) / (L : ℚ)⌉ ∧
  List.Chain' (fun a b => a.2 = b.1) (split_video (D : ℚ) L) ∧
  (0 < D → (split_video (D : ℚ) L).head? = some (0, min (L : ℚ) (D : ℚ))) ∧
  (0 < D → ((split_video (D : ℚ) L).getLast?).map Prod.snd = some ((D : ℚ))) ∧
  (∀ p ∈ split_video (D : ℚ) L, p.1 < p.2 ∧ p.2 - p.1 ≤ (L : ℚ)) ∧
  (D = 0 → split_video (D : ℚ) L = [])

theorem nat_le_ceilDiv_mul {L m : ℕ} (hL : 0 < L) : m ≤ ((m + L - 1) / L) * L := by
  rcases Nat.eq_zero_or_pos m with rfl | hm
  · simp
  · have hdm := Nat.div_add_mod (m + L - 1) L
    have hmod : (m + L - 1) % L < L := Nat.mod_lt _ hL
    have hcomm : ((m + L - 1) / L) * L = L * ((m + L - 1) / L) := Nat.mul_comm _ _
    omega

theorem nat_mul_lt_of_lt_ceilDiv {L m i : ℕ} (hL : 0 < L)
    (h : i < (m + L - 1) / L) : i * L < m := by
  have h1 : (i + 1) * L ≤ m + L - 1 := (Nat.le_div_iff_mul_le hL).mp h
  have h2 : i * L + L ≤ m + L - 1 := by
    calc i * L + L = (i + 1) * L := by ring
    _ ≤ m + L - 1 := h1
  omega

theorem ceilDiv_cast_eq_ceil (m L : ℕ) (hL : 0 < L) :
    (((m + L - 1) / L : ℕ) : ℤ) = ⌈(m : ℚ) / (L : ℚ)⌉ := by
  rcases Nat.eq_zero_or_pos m with rfl | hm
  · have h0 : (L - 1) / L = 0 := Nat.div_eq_of_lt (by omega)
    simp [h0]
  · have hLQ : (0 : ℚ) < (L : ℚ) := by exact_mod_cast hL
    have hq1 : 1 ≤ (m + L - 1) / L := by
      rw [Nat.le_div_iff_mul_le hL]
      omega
    symm
    rw [Int.ceil_eq_iff]
    constructor
    · rw [lt_div_iff₀ hLQ]
      simp only [Int.cast_natCast]
      have hlt : ((m + L - 1) / L - 1) * L < m :=
        nat_mul_lt_of_lt_ceilDiv hL (by omega)
      have hlt2 : (((m + L - 1) / L - 1 : ℕ) : ℚ) * (L : ℚ) < (m : ℚ) := by
        exact_mod_cast hlt
      rw [Nat.cast_sub hq1] at hlt2
      simpa using hlt2
    · rw [div_le_iff₀ hLQ]
      simp only [Int.cast_natCast]
      have hle : m ≤ ((m + L - 1) / L) * L := nat_le_ceilDiv_mul hL
      exact_mod_cast hle

theorem split_video_length (D : ℚ) (L : ℕ) :
    (split_video D L).length = (⌊D⌋.toNat + L - 1) / L := by
  simp [split_video]

theorem split_video_get (D : ℚ) (L i : ℕ) (h : i < (split_video D L).length) :
    (split_video D L).get ⟨i, h⟩ =
      (((i * L : ℕ) : ℚ), min (((i * L + L : ℕ) : ℚ)) D) := by
  simp [split_video]

/-- The Segmenter claim holds for whole-second durations: `_split_video`
on an integer duration `D` and segment length `L > 0` produces
`ceil(D / L)` segments whose intervals tile `[0, D)` in order with no gaps
and no overlaps, each of positive length at most `L`, the remainder never
dropped. -/
theorem split_video_integer_tiling (D L : ℕ) (hL : 0 < L) : SplitTilingInt D L := by
  have hfloor : (⌊((D : ℕ) : ℚ)⌋).toNat = D := by
    rw [Int.floor_natCast]
    exact Int.toNat_natCast D
  have hlen : (split_video (D : ℚ) L).length = (D + L - 1) / L := by
    rw [split_video_length, hfloor]
  have hmul_lt : ∀ i, i < (D + L - 1) / L → i * L < D := fun i hi =>
    nat_mul_lt_of_lt_ceilDiv hL hi
  refine ⟨hlen, ceilDiv_cast_eq_ceil D L hL, ?_, ?_, ?_, ?_, ?_⟩
  · -- adjacent segments share an endpoint
    rw [split_video]
    rw [List.chain'_map]
    rw [hfloor]
    rcases hn : (D + L - 1) / L with _ | n
    · simp
    · rw [List.chain'_range_succ]
      intro m hm
      have hmlt : (m + 1) * L < D := by
        apply hmul_lt
        omega
      have hle : ((m * L + L : ℕ) : ℚ) ≤ (D : ℚ) := by
        have : m * L + L ≤ D := by
          calc m * L + L = (m + 1) * L := by ring
          _ ≤ D := le_of_lt hmlt
        exact_mod_cast this
      simp only [min_eq_left hle]
      push_cast
      ring
  · -- first segment starts at 0
    intro hD
    have hpos : 0 < (D + L - 1) / L := (Nat.le_div_iff_mul_le hL).mpr (by omega)
    rw [split_video, hfloor]
    rcases hn : (D + L - 1) / L with _ | n
    · omega
    · rw [List.range_succ_eq_map]
      simp only [List.map_cons, List.head?_cons]
      norm_num
  · -- last segment ends at D
    intro hD
    have hpos : 0 < (D + L - 1) / L := (Nat.le_div_iff_mul_le hL).mpr (by omega)
    have hidx : (split_video (D : ℚ) L).length - 1 < (split_video (D : ℚ) L).length := by
      rw [hlen]
      omega
    have hDleNat : D ≤ ((D + L - 1) / L - 1) * L + L := by
      have h1 : D ≤ ((D + L - 1) / L) * L := nat_le_ceilDiv_mul hL
      have h2 : ((D + L - 1) / L - 1) * L + L = ((D + L - 1) / L) * L := by
        cases hq : (D + L - 1) / L with
        | zero => omega
        | succ n => simp [Nat.succ_mul]
      omega
    rw [List.getLast?_eq_get?, List.get?_eq_get hidx, split_video_get]
    have hmin : min ((((split_video (D : ℚ) L).length - 1) * L + L : ℕ) : ℚ) (D : ℚ)
        = (D : ℚ) := by
      apply min_eq_right
      rw [hlen]
      exact_mod_cast hDleNat
    rw [hmin]
    rfl
  · -- every segment has positive length at most L
    intro p hp
    rw [split_video, hfloor] at hp
    simp only [List.mem_map, List.mem_range] at hp
    obtain ⟨i, hi, rfl⟩ := hp
    dsimp only
    have hiD : i * L < D := hmul_lt i hi
    constructor
    · apply lt_min
      · exact_mod_cast (by omega : i * L < i * L + L)
      · exact_mod_cast hiD
    · have h1 : min (((i * L + L : ℕ)) : ℚ) (D : ℚ) ≤ ((i * L + L : ℕ) : ℚ) :=
        min_le_left _ _
      have h2 : ((i * L + L : ℕ) : ℚ) = ((i * L : ℕ) : ℚ) + (L : ℚ) := by
        push_cast
        ring
      linarith
  · -- a zero duration yields no segments
    intro hD
    subst hD
    have : (split_video ((0 : ℕ) : ℚ) L).length = 0 := by
      rw [hlen]
      have : (0 + L - 1) / L = 0 := Nat.div_eq_of_lt (by omega)
      omega
    exact List.length_eq_zero.mp this

/-- The Segmenter claim fails on fractional durations: a 120.5-second
source with 60-second segments yields two segments `[0, 60)` and
`[60, 120)`, not the claimed `ceil(120.5 / 60) = 3`, and the fractional
remainder `[120, 120.5)` is dropped. -/
theorem split_video_fractional_duration_counterexample :
    split_video (241 / 2) 60 = [((0 : ℚ), (60 : ℚ)), ((60 : ℚ), (120 : ℚ))] ∧
    (⌈(241 / 2 : ℚ) / 60⌉ : ℤ) = 3 ∧
    ((120 : ℚ) ≠ 241 / 2) := by
  have hfl : ⌊(241 / 2 : ℚ)⌋ = 120 := by
    rw [Int.floor_eq_iff]
    norm_num
  refine ⟨?_, ?_, by norm_num⟩
  · rw [split_video, hfl]
    have hn : ((120 : ℤ).toNat + 60 - 1) / 60 = 2 := by decide
    rw [hn]
    have hm1 : min (((0 * 60 + 60 : ℕ)) : ℚ) (241 / 2) = 60 := by
      rw [min_eq_left]
      · norm_num
      · norm_num
    have hm2 : min (((1 * 60 + 60 : ℕ)) : ℚ) (241 / 2) = 120 := by
      rw [min_eq_left]
      · norm_num
      · norm_num
    simp only [List.range_succ, List.range_zero, List.map_append, List.map_cons,
      List.map_nil, List.nil_append, List.cons_append, hm1, hm2]
    norm_num
  · rw [Int.ceil_eq_iff]
    norm_num

theorem split_video_integer_tiling_witness : 0 < 60 ∧ SplitTilingInt 125 60 :=
  ⟨by decide, split_video_integer_tiling 125 60 (by decide)⟩

theorem qmod_one (x : ℚ) : qmod x 1 = Int.fract x := by
  rw [qmod, div_one, Int.fract]
  ring

theorem qmod_sixty (t : ℚ) : qmod t 60 = t - ((60 * ⌊t / 60⌋ : ℤ) : ℚ) := by
  rw [qmod]
  push_cast
  ring

theorem floor_qmod_thirtysixhundred_div (t : ℚ) :
    ⌊qmod t 3600 / 60⌋ = ⌊t / 60⌋ - 60 * ⌊t / 3600⌋ := by
  have h : qmod t 3600 / 60 = t / 60 - ((60 * ⌊t / 3600⌋ : ℤ) : ℚ) := by
    rw [qmod]
    push_cast
    ring
  rw [h, Int.floor_sub_int]

theorem floor_qmod_sixty (t : ℚ) : ⌊qmod t 60⌋ = ⌊t⌋ - 60 * ⌊t / 60⌋ := by
  rw [qmod_sixty, Int.floor_sub_int]

theorem fract_qmod_sixty (t : ℚ) : qmod (qmod t 60) 1 = Int.fract t := by
  rw [qmod_one, qmod_sixty, Int.fract_sub_int]

theorem timestamp_roundtrip_eq (t : ℚ) :
    timestamp_roundtrip t = (⌊t⌋ : ℚ) + ((⌊Int.fract t * 1000⌋ : ℤ) : ℚ) / 1000 := by
  rw [timestamp_roundtrip, srt_time_to_seconds, format_timestamp]
  dsimp only
  rw [floor_qmod_thirtysixhundred_div, floor_qmod_sixty, fract_qmod_sixty]
  push_cast
  ring

/-- Converting a nonnegative time below 100 hours to the SRT timestamp
format with `_format_timestamp` and parsing it back with
`_srt_time_to_seconds` loses only the sub-millisecond part of the time:
the round-tripped value is at most the original and differs from it by
strictly less than 0.001 seconds. -/
theorem timestamp_roundtrip_millisecond (t : ℚ) (h0 : 0 ≤ t) (h1 : t < 360000) :
    0 ≤ t - timestamp_roundtrip t ∧ t - timestamp_roundtrip t < 1 / 1000 := by
  have hdiff : t - timestamp_roundtrip t
      = Int.fract t - ((⌊Int.fract t * 1000⌋ : ℤ) : ℚ) / 1000 := by
    rw [timestamp_roundtrip_eq, Int.fract]
    ring
  have hfl : ((⌊Int.fract t * 1000⌋ : ℤ) : ℚ) ≤ Int.fract t * 1000 :=
    Int.floor_le _
  have hfu : Int.fract t * 1000 < ((⌊Int.fract t * 1000⌋ : ℤ) : ℚ) + 1 :=
    Int.lt_floor_add_one _
  constructor
  · rw [hdiff, sub_nonneg, div_le_iff₀ (by norm_num : (0 : ℚ) < 1000)]
    exact hfl
  · rw [hdiff, sub_lt_iff_lt_add]
    rw [div_add_div_same, lt_div_iff₀ (by norm_num : (0 : ℚ) < 1000)] at *
    linarith

theorem timestamp_roundtrip_millisecond_witness :
    (0 ≤ (14645 / 2 : ℚ) ∧ (14645 / 2 : ℚ) < 360000) ∧
    (0 ≤ (14645 / 2 : ℚ) - timestamp_roundtrip (14645 / 2) ∧
      (14645 / 2 : ℚ) - timestamp_roundtrip (14645 / 2) < 1 / 1000) :=
  ⟨⟨by norm_num, by norm_num⟩,
    timestamp_roundtrip_millisecond (14645 / 2) (by norm_num) (by norm_num)⟩

/-- The Transcoder never reports success for an artifact over the platform
limit, never runs the reduction re-encode more than once, and when the
reduction runs it uses the recomputed bitrate and replaces the original on
success. -/
theorem reencode_video_size_limit (max_size : ℚ) (env : EncodeEnv) :
    EncodeGuarantees max_size env := by
  obtain ⟨a, e, sz, ra, d, re, tc, rs⟩ := env
  rw [EncodeGuarantees, reencode_video, reduce_file_size]
  cases a <;> cases e <;> cases ra <;> cases re <;>
    simp_all <;> split_ifs <;> simp_all [decide_eq_true_eq]

theorem reencode_video_size_limit_witness :
    EncodeGuarantees 50
      { analyzeOk := true, encodeOk := true, outputSizeMB := 100,
        reduceAnalyzeOk := true, durationSec := 10, reduceEncodeOk := true,
        reduceTempCreated := false, reducedSizeMB := 40 } :=
  reencode_video_size_limit 50 _

theorem foldl_append_eq_filterMap (reencode : Bool) (envs : List SegmentEnv) :
    ∀ acc : List String,
      envs.foldl
        (fun acc env =>
          match run_segment reencode env with
          | some p => acc ++ [p]
          | none => acc)
        acc
      = acc ++ envs.filterMap (run_segment reencode) := by
  induction envs with
  | nil => intro acc; simp
  | cons e rest ih =>
    intro acc
    cases h : run_segment reencode e <;>
      simp [List.filterMap_cons, h, ih, List.append_assoc]

/-- A per-segment failure in `process_video` is segment-local: the loop
continues past it and the returned list holds exactly the output paths of
the segments whose iteration fully succeeded.  In particular three
segments with one failing encode yield exactly two artifacts. -/
theorem process_video_skips_failed_segments :
    (∀ (reencode : Bool) (envs : List SegmentEnv),
      process_video true false reencode envs
        = envs.filterMap (run_segment reencode)) ∧
    process_video true false true
      [{ exportOk := true, subsWriteOk := true, saveOk := true, encodeOk := true,
          outputPath := "segment1.mp4" },
        { exportOk := true, subsWriteOk := true, saveOk := true, encodeOk := false,
          outputPath := "segment2.mp4" },
        { exportOk := true, subsWriteOk := true, saveOk := true, encodeOk := true,
          outputPath := "segment3.mp4" }]
      = ["segment1.mp4", "segment3.mp4"] := by
  constructor
  · intro reencode envs
    rw [process_video]
    simp only [Bool.true_eq_false, if_false, if_neg]
    rw [foldl_append_eq_filterMap]
    simp
  · rw [process_video]
    simp [run_segment]

/-- The temp files of a segment iteration survive an encoder failure, and
the reduction temp file of `_reduce_file_size` survives a failed reduction
encode: the claimed removal on every exit path does not happen. -/
theorem temp_file_leak_on_encode_failure :
    run_segment_leftover true 0
      { exportOk := true, subsWriteOk := true, saveOk := true, encodeOk := false,
        outputPath := "out.mp4" }
      = ["temp_segment_1.mp4", "temp_with_subs_1.mp4"] ∧
    reduce_file_size_leftover
      { analyzeOk := true, encodeOk := true, outputSizeMB := 100,
        reduceAnalyzeOk := true, durationSec := 60, reduceEncodeOk := false,
        reduceTempCreated := true, reducedSizeMB := 100 }
      "video.mp4"
      = ["video.mp4.temp.mp4"] ∧
    (["temp_segment_1.mp4", "temp_with_subs_1.mp4"] : List String) ≠ [] := by
  refine ⟨?_, ?_, by decide⟩
  · rw [run_segment_leftover]
    norm_num
    exact ⟨rfl, rfl⟩
  · rw [reduce_file_size_leftover]
    norm_num
    rfl

/-- A dry run of `process_video` on an existing source returns the empty
list and writes nothing: the early return at lines 107-110 precedes every
export, sidecar write and encode. -/
theorem process_video_dry_run_no_outputs (reencode : Bool) (envs : List SegmentEnv) :
    process_video true true reencode envs = [] ∧
    process_video_writes true true reencode envs = [] :=
  ⟨rfl, rfl⟩

theorem captions_foldl_eq_map (spans : List SubSpan) :
    ∀ acc : List RenderedCaption,
      spans.foldl (fun txt_clips s => txt_clips ++ [⟨s.start, s.endTime, s.text⟩]) acc
        = acc ++ spans.map fun s => (⟨s.start, s.endTime, s.text⟩ : RenderedCaption) := by
  induction spans with
  | nil => intro acc; simp
  | cons s rest ih => intro acc; simp [ih, List.append_assoc]

/-- The claimed merge/split normalization does not happen: the code passes
the transcriber spans through unchanged, while the claimed normalization
merges the two sub-1.2s spans of this input into one. -/
theorem span_normalization_absent_counterexample :
    generate_subtitles_for_segment true true
        [⟨0, 1 / 2, "a"⟩, ⟨1 / 2, 1, "b"⟩, ⟨1, 3, "c"⟩]
      = some [⟨0, 1 / 2, "a"⟩, ⟨1 / 2, 1, "b"⟩, ⟨1, 3, "c"⟩] ∧
    spec_normalize [⟨0, 1 / 2, "a"⟩, ⟨1 / 2, 1, "b"⟩, ⟨1, 3, "c"⟩]
      = [⟨0, 1, "a b"⟩, ⟨1, 3, "c"⟩] ∧
    ([⟨0, 1 / 2, "a"⟩, ⟨1 / 2, 1, "b"⟩, ⟨1, 3, "c"⟩] : List SubSpan)
      ≠ [⟨0, 1, "a b"⟩, ⟨1, 3, "c"⟩] := by
  refine ⟨rfl, ?_, ?_⟩
  · rw [spec_normalize]
    have hm : spec_merge none [⟨0, 1 / 2, "a"⟩, ⟨1 / 2, 1, "b"⟩, ⟨1, 3, "c"⟩]
        = [⟨0, 1, "a b"⟩, ⟨1, 3, "c"⟩] := by
      rw [spec_merge]
      rw [if_pos (by norm_num : (1 / 2 : ℚ) - 0 < 12 / 10)]
      rw [spec_merge]
      rw [if_pos (by norm_num : (1 : ℚ) - 1 / 2 < 12 / 10)]
      rw [spec_merge]
      rw [if_neg (by norm_num : ¬ ((3 : ℚ) - 1 < 12 / 10))]
      rfl
    rw [hm]
    have hs1 : spec_split_span ⟨0, 1, "a b"⟩ = [⟨0, 1, "a b"⟩] := by
      rw [spec_split_span]
      norm_num
    have hs2 : spec_split_span ⟨1, 3, "c"⟩ = [⟨1, 3, "c"⟩] := by
      rw [spec_split_span]
      norm_num
    simp [hs1, hs2]
  · intro hcontra
    have := congrArg List.length hcontra
    simp at this

/-- The span pipeline of the code is the identity: the transcriber spans
are neither merged nor split, and the renderer turns each of them into one
caption verbatim. -/
theorem span_pipeline_identity (spans : List SubSpan) :
    generate_subtitles_for_segment true true spans = some spans ∧
    add_subtitles true spans
      = some (spans.map fun s => (⟨s.start, s.endTime, s.text⟩ : RenderedCaption)) := by
  constructor
  · rw [generate_subtitles_for_segment]
    simp
  · rw [add_subtitles]
    simp [captions_foldl_eq_map]

/-- The claimed defensive span filter does not exist in the code: both the
valid 2-second span and the invalid 20-second span of this input are
rendered, while the claimed filter keeps only the valid one. -/
theorem render_filter_absent_counterexample :
    add_subtitles true [⟨0, 2, "valid"⟩, ⟨2, 22, "too long"⟩]
      = some [⟨0, 2, "valid"⟩, ⟨2, 22, "too long"⟩] ∧
    ((add_subtitles true [⟨0, 2, "valid"⟩, ⟨2, 22, "too long"⟩]).getD []).length = 2 ∧
    spec_filter_spans [⟨0, 2, "valid"⟩, ⟨2, 22, "too long"⟩] = [⟨0, 2, "valid"⟩] ∧
    (2 : ℕ) ≠ 1 := by
  refine ⟨rfl, rfl, ?_, by decide⟩
  rw [spec_filter_spans]
  rw [List.filter_cons, List.filter_cons, List.filter_nil]
  have h1 : (decide ((0 : ℚ) < 2 - 0) && decide ((2 : ℚ) - 0 ≤ 15) &&
      !(("valid" : String).data.all fun c => c.isWhitespace)) = true := by
    rw [decide_eq_true (by norm_num : ((0 : ℚ) < 2 - 0)),
      decide_eq_true (by norm_num : ((2 : ℚ) - 0 ≤ 15))]
    rfl
  have h2 : (decide ((0 : ℚ) < 22 - 2) && decide ((22 : ℚ) - 2 ≤ 15) &&
      !(("too long" : String).data.all fun c => c.isWhitespace)) = false := by
    rw [decide_eq_false (by norm_num : ¬ ((22 : ℚ) - 2 ≤ 15))]
    simp
  rw [h1, h2]
  simp

/-- Every span handed to `_add_subtitles` is rendered: the caption list is
exactly the span list, with no span excluded for its duration or text. -/
theorem add_subtitles_renders_all_spans (spans : List SubSpan) :
    add_subtitles true spans
      = some (spans.map fun s => (⟨s.start, s.endTime, s.text⟩ : RenderedCaption)) ∧
    ((add_subtitles true spans).getD []).length = spans.length ∧
    (∀ s ∈ spans,
      (⟨s.start, s.endTime, s.text⟩ : RenderedCaption)
        ∈ (add_subtitles true spans).getD []) := by
  have h : add_subtitles true spans
      = some (spans.map fun s => (⟨s.start, s.endTime, s.text⟩ : RenderedCaption)) := by
    rw [add_subtitles]
    simp [captions_foldl_eq_map]
  refine ⟨h, ?_, ?_⟩
  · rw [h]
    simp
  · intro s hs
    rw [h]
    simp only [Option.getD_some, List.mem_map]
    exact ⟨s, hs, rfl⟩

theorem ratio_lt_iff (w h : ℕ) (hh : 0 < h) :
    ((9 : ℚ) / 16 < (w : ℚ) / (h : ℚ)) ↔ 9 * h < 16 * w := by
  rw [div_lt_div_iff (by norm_num : (0 : ℚ) < 16) (by exact_mod_cast hh : (0 : ℚ) < (h : ℚ))]
  rw [show ((9 : ℚ) * (h : ℚ) = ((9 * h : ℕ) : ℚ)) from by push_cast; ring]
  rw [show ((w : ℚ) * 16 = ((16 * w : ℕ) : ℚ)) from by push_cast; ring]
  exact Nat.cast_lt

/-- The aspect correction of `_force_vertical_format`: inputs wider than
9:16 get symmetric top/bottom letterbox bars on an unchanged width, inputs
at most 9:16 get symmetric left/right pillarbox bars on an unchanged
height, and a 1080×1920 input keeps its dimensions with no padding. -/
theorem force_vertical_format_spec (w h : ℕ) (hw : 0 < w) (hh : 0 < h) :
    VerticalFormatSpec w h := by
  refine ⟨?_, ?_, ?_⟩
  · intro hc
    have hcond : (9 : ℚ) / 16 < (w : ℚ) / (h : ℚ) := (ratio_lt_iff w h hh).mpr hc
    rw [force_vertical_format, if_pos hcond]
    refine ⟨rfl, ?_, by omega, by omega⟩
    rw [Nat.le_div_iff_mul_le (by norm_num : 0 < 9)]
    omega
  · intro hc
    have hcond : ¬ ((9 : ℚ) / 16 < (w : ℚ) / (h : ℚ)) := by
      rw [ratio_lt_iff w h hh]
      omega
    rw [force_vertical_format, if_neg hcond]
    refine ⟨rfl, ?_, by omega, by omega⟩
    rw [Nat.le_div_iff_mul_le (by norm_num : 0 < 16)]
    omega
  · have hcond : ¬ ((9 : ℚ) / 16 < ((1080 : ℕ) : ℚ) / ((1920 : ℕ) : ℚ)) := by
      rw [ratio_lt_iff 1080 1920 (by norm_num)]
      decide
    rw [force_vertical_format, if_neg hcond]

/-- The Format Normalizer claim fails on a 1920×1080 input: the code
letterboxes it to 1920×3413 (top/bottom bars, width unchanged), not to a
pillarboxed frame of width `1080 × 9/16`, which would be 607. -/
theorem force_vertical_letterbox_counterexample :
    force_vertical_format 1920 1080
      = { width := 1920, height := 3413, posX := 0, posY := 1166 } ∧
    9 * 1080 / 16 = 607 ∧
    (force_vertical_format 1920 1080).width ≠ 607 ∧
    (force_vertical_format 1920 1080).width ≠ 608 ∧
    1080 < (force_vertical_format 1920 1080).height := by
  have hcond : (9 : ℚ) / 16 < ((1920 : ℕ) : ℚ) / ((1080 : ℕ) : ℚ) := by
    rw [ratio_lt_iff 1920 1080 (by norm_num)]
    decide
  have hval : force_vertical_format 1920 1080
      = { width := 1920, height := 3413, posX := 0, posY := 1166 } := by
    rw [force_vertical_format, if_pos hcond]
  refine ⟨hval, by decide, ?_, ?_, ?_⟩ <;> rw [hval] <;> decide

theorem force_vertical_format_spec_witness :
    (0 < 1920 ∧ 0 < 1080) ∧ VerticalFormatSpec 1920 1080 :=
  ⟨⟨by decide, by decide⟩, force_vertical_format_spec 1920 1080 (by decide) (by decide)⟩

/-- The renderer fallback that the code actually implements: libass falls
back to drawtext inside `_add_subtitles_ffmpeg`, which reports failure
when both fail, while the MoviePy renderer used by the pipeline returns
the original video on failure without a second renderer. -/
theorem subtitle_renderer_fallback (env : FfmpegSubsEnv)
    (hv : env.videoExists = true) (hs : env.srtExists = true)
    (hp : env.probeOk = true) : RendererFallbackSpec env := by
  obtain ⟨v, s, p, la, dr⟩ := env
  simp only at hv hs hp
  subst hv hs hp
  cases la <;> cases dr <;>
    simp [RendererFallbackSpec, add_subtitles_ffmpeg, add_subtitles]

/-- The claim that a double renderer failure returns the original video
fails: with both ffmpeg invocations failing, `_add_subtitles_ffmpeg`
reports failure after trying libass then drawtext; the original video is
not returned. -/
theorem ffmpeg_subtitles_both_fail_counterexample :
    add_subtitles_ffmpeg
      { videoExists := true, srtExists := true, probeOk := true,
        libassOk := false, drawtextOk := false }
      = (SubsOutput.none_produced, [RendererAttempt.libass, RendererAttempt.drawtext]) ∧
    SubsOutput.none_produced ≠ SubsOutput.original := by
  refine ⟨rfl, by decide⟩

theorem subtitle_renderer_fallback_witness :
    ((⟨true, true, true, false, true⟩ : FfmpegSubsEnv).videoExists = true ∧
      (⟨true, true, true, false, true⟩ : FfmpegSubsEnv).srtExists = true ∧
      (⟨true, true, true, false, true⟩ : FfmpegSubsEnv).probeOk = true) ∧
    RendererFallbackSpec (⟨true, true, true, false, true⟩ : FfmpegSubsEnv) :=
  ⟨⟨rfl, rfl, rfl⟩, subtitle_renderer_fallback _ rfl rfl rfl⟩

end ClipMaster
